import Mathlib

/-!
Verification of the polling-cache-and-staleness layer of the ood-hpc-dash
dashboard (a Flask app shelling out to SLURM and Lmod command-line tools).

The Python sources are shallowly embedded: each relevant function is
translated into an executable Lean definition over explicit state.
Python dicts are modelled as association lists with string keys (a real
Python dict has pairwise-distinct keys; where a proof needs that fact it
appears as a List.Nodup hypothesis on the key list).  Wall-clock times
(floats in the source) are modelled as integers or naturals; only
comparisons against whole-second constants occur in the relevant code.
-/

/-! ## Python dict primitives (association lists, string keys) -/

/-- Dict lookup `d.get(k)` / `d[k]`: first (for a dict: only) binding. -/
def pyGet {V : Type} : List (String × V) → String → Option V
  | [], _ => none
  | p :: ps, k => if p.1 = k then some p.2 else pyGet ps k

/-- Dict assignment `d[k] = v`: overwrite the binding if the key is
present, append a new binding otherwise. -/
def pySetItem {V : Type} : List (String × V) → String → V → List (String × V)
  | [], k, v => [(k, v)]
  | p :: ps, k, v => if p.1 = k then (k, v) :: ps else p :: pySetItem ps k v

/-- Python `d.update(c)`: assign every binding of `c` into `d`, in order. -/
def pyUpdate {V : Type} (d c : List (String × V)) : List (String × V) :=
  c.foldl (fun acc p => pySetItem acc p.1 p.2) d

theorem pyGet_pySetItem_self {V : Type} (d : List (String × V)) (k : String) (v : V) :
    pyGet (pySetItem d k v) k = some v := by
  induction d with
  | nil => simp [pySetItem, pyGet]
  | cons p ps ih =>
    by_cases h : p.1 = k
    · simp [pySetItem, pyGet, h]
    · simp [pySetItem, pyGet, h, ih]

theorem pyGet_pySetItem_other {V : Type} (d : List (String × V)) (k k2 : String) (v : V)
    (h : k2 ≠ k) : pyGet (pySetItem d k v) k2 = pyGet d k2 := by
  have hne : ¬ (k = k2) := fun he => h he.symm
  induction d with
  | nil => simp [pySetItem, pyGet, hne]
  | cons p ps ih =>
    by_cases hp : p.1 = k
    · simp [pySetItem, pyGet, hp, hne]
    · by_cases hp2 : p.1 = k2 <;> simp [pySetItem, pyGet, hp, hp2, ih, h]

theorem pySetItem_of_pyGet_eq {V : Type} (d : List (String × V)) (k : String) (v : V)
    (h : pyGet d k = some v) : pySetItem d k v = d := by
  induction d with
  | nil => simp [pyGet] at h
  | cons p ps ih =>
    obtain ⟨a, b⟩ := p
    by_cases hp : a = k
    · subst hp
      have hb : b = v := by simpa [pyGet] using h
      subst hb
      simp [pySetItem]
    · have h2 : pyGet ps k = some v := by simpa [pyGet, hp] using h
      simp [pySetItem, hp, ih h2]

theorem pyGet_of_mem_nodup {V : Type} (d : List (String × V)) (k : String) (v : V)
    (hmem : (k, v) ∈ d) (hnd : (d.map Prod.fst).Nodup) : pyGet d k = some v := by
  induction d with
  | nil => simp at hmem
  | cons p ps ih =>
    obtain ⟨a, b⟩ := p
    simp only [List.map_cons, List.nodup_cons] at hnd
    rcases List.mem_cons.mp hmem with h | h
    · injection h with h1 h2
      subst h1
      subst h2
      simp [pyGet]
    · have hne : ¬ (a = k) := by
        intro he
        subst he
        exact hnd.1 (List.mem_map.mpr ⟨(a, v), h, rfl⟩)
      simp [pyGet, hne, ih h hnd.2]

theorem pyGet_pyUpdate_not_mem {V : Type} (c : List (String × V)) (k : String)
    (h : k ∉ c.map Prod.fst) :
    ∀ d : List (String × V), pyGet (pyUpdate d c) k = pyGet d k := by
  induction c with
  | nil => intro d; rfl
  | cons p ps ih =>
    intro d
    simp only [List.map_cons, List.mem_cons, not_or] at h
    have step : pyGet (pySetItem d p.1 p.2) k = pyGet d k :=
      pyGet_pySetItem_other d p.1 k p.2 h.1
    have rest := ih (by
      intro hin
      exact absurd hin h.2) (pySetItem d p.1 p.2)
    calc pyGet (pyUpdate d (p :: ps)) k
        = pyGet (pyUpdate (pySetItem d p.1 p.2) ps) k := rfl
      _ = pyGet (pySetItem d p.1 p.2) k := rest
      _ = pyGet d k := step

theorem pyGet_pyUpdate_of_mem {V : Type} (c : List (String × V)) (k : String) (v : V)
    (hmem : (k, v) ∈ c) (hnd : (c.map Prod.fst).Nodup) :
    ∀ d : List (String × V), pyGet (pyUpdate d c) k = some v := by
  induction c with
  | nil => simp at hmem
  | cons p ps ih =>
    intro d
    obtain ⟨a, b⟩ := p
    simp only [List.map_cons, List.nodup_cons] at hnd
    rcases List.mem_cons.mp hmem with h | h
    · injection h with h1 h2
      subst h1
      subst h2
      have hk : k ∉ ps.map Prod.fst := hnd.1
      calc pyGet (pyUpdate d ((k, v) :: ps)) k
          = pyGet (pyUpdate (pySetItem d k v) ps) k := rfl
        _ = pyGet (pySetItem d k v) k := pyGet_pyUpdate_not_mem ps k hk _
        _ = some v := pyGet_pySetItem_self d k v
    · exact ih h hnd.2 (pySetItem d a b)

theorem pyUpdate_of_all_present {V : Type} (c : List (String × V)) :
    ∀ d : List (String × V), (∀ p ∈ c, pyGet d p.1 = some p.2) → pyUpdate d c = d := by
  induction c with
  | nil => intro d _; rfl
  | cons p ps ih =>
    intro d h
    have hset : pySetItem d p.1 p.2 = d :=
      pySetItem_of_pyGet_eq d p.1 p.2 (h p (List.mem_cons_self _ _))
    have rest := ih d (fun q hq => h q (List.mem_cons_of_mem _ hq))
    calc pyUpdate d (p :: ps)
        = pyUpdate (pySetItem d p.1 p.2) ps := rfl
      _ = pyUpdate d ps := by rw [hset]
      _ = d := rest

theorem pyUpdate_idem {V : Type} (d c : List (String × V))
    (hnd : (c.map Prod.fst).Nodup) : pyUpdate (pyUpdate d c) c = pyUpdate d c :=
  pyUpdate_of_all_present c (pyUpdate d c)
    (fun p hp => pyGet_pyUpdate_of_mem c p.1 p.2 hp hnd d)

/-! ## Python string primitives

The model uses character-level implementations of the Python string
operations the sources rely on (`strip`, `lower`, `split`, `in`,
`endswith`, `startswith`, string `<`, `int` on a digit run), by structural
recursion over the character list, so that every concrete instance
evaluates inside the kernel.  The sources only handle ASCII command
output, where these agree with Python's Unicode-aware versions. -/

/-- Lowercasing of one character (`str.lower`, ASCII range). -/
def pyCharLower (c : Char) : Char :=
  if 'A' ≤ c ∧ c ≤ 'Z' then Char.ofNat (c.toNat + 32) else c

/-- Python `s.lower()`. -/
def pyLower (s : String) : String := String.mk (s.data.map pyCharLower)

/-- The whitespace class Python `str.strip()` removes. -/
def pyIsSpace (c : Char) : Bool :=
  c == ' ' || c == '\t' || c == '\n' || c == '\r' || c == '\x0B' || c == '\x0C'

/-- Python `s.strip()`. -/
def pyStrip (s : String) : String :=
  String.mk (((s.data.dropWhile pyIsSpace).reverse.dropWhile pyIsSpace).reverse)

/-- Splitting on one separator character, keeping empty pieces (Python
`s.split(sep)` for a one-character separator). -/
def pySplitChar (sep : Char) : List Char → List (List Char)
  | [] => [[]]
  | c :: rest =>
    match pySplitChar sep rest with
    | [] => [[c]]
    | h :: t => if c = sep then [] :: h :: t else (c :: h) :: t

/-- Python `s.split(sep)` for a one-character separator. -/
def pySplitOn (s : String) (sep : Char) : List String :=
  (pySplitChar sep s.data).map String.mk

/-- Code-point comparison of character lists (Python string `<`). -/
def charListLt : List Char → List Char → Bool
  | [], [] => false
  | [], _ :: _ => true
  | _ :: _, [] => false
  | c :: cs, d :: ds =>
    if c < d then true
    else if d < c then false
    else charListLt cs ds

/-- Python string `<`. -/
def pyStrLt (a b : String) : Bool := charListLt a.data b.data

/-- Python `c in s` for a character. -/
def pyContainsChar (s : String) (c : Char) : Bool := s.data.contains c

/-- Python `s.endswith(c)` for a one-character suffix. -/
def pyEndsWithChar (s : String) (c : Char) : Bool := s.data.getLast? == some c

/-- Python `s.startswith(p)`. -/
def pyStartsWith (s p : String) : Bool := p.data.isPrefixOf s.data

/-- Joining pieces with a one-character separator (`sep.join`). -/
def joinSepChar (sep : Char) : List (List Char) → List Char
  | [] => []
  | [x] => x
  | x :: y :: rest => x ++ sep :: joinSepChar sep (y :: rest)

/-- Python `sep.join(parts)` for a one-character separator. -/
def pyIntercalate (sep : Char) (l : List String) : String :=
  String.mk (joinSepChar sep (l.map String.data))

/-- Python `int` applied to a run of decimal digits. -/
def digitsToNat (cs : List Char) : Nat :=
  cs.foldl (fun n c => n * 10 + (c.toNat - '0'.toNat)) 0

/-! ## C1 — staleness gate of the background partition refresh

`update_partitions_background` (src/app.py lines 112-134) decides whether
to skip the refresh: a refresh is skipped when `logs/partitions.txt`
exists and `time.time() - partitions_file.stat().st_mtime < 300`
(the source comment says five minutes).  When the gate does not skip, the
refresh script actually runs only if `scripts/update_partitions.sh`
exists. -/

/-- The staleness gate of `update_partitions_background`: true when the
refresh is skipped (the file exists and `now - mtime < 300` seconds). -/
def partitions_skip_refresh (partitions_file_exists : Bool) (now mtime : Int) : Bool :=
  partitions_file_exists && decide (now - mtime < 300)

/-- Whether `update_partitions.sh` is actually invoked by
`update_partitions_background`. -/
def partitions_refresh_runs (partitions_file_exists update_script_exists : Bool)
    (now mtime : Int) : Bool :=
  !(partitions_skip_refresh partitions_file_exists now mtime) && update_script_exists

/-! ## C4 — module-command gateway stdout/stderr handling

`_call_module_command` (src/blueprints/modules.py lines 46-119).  We embed
the handling of a finished subprocess, lines 100-113: the function of the
exit code and the two streams.  Python truthiness of a string is equality
with the empty string; `.strip()` is modelled by `String.trim` (the module
payloads involved are ASCII text). -/

/-- Result handling of `_call_module_command` once the subprocess returned:
yields `(output, error)` with exactly one component present. -/
def module_command_result (returncode : Int) (stdout stderr : String) :
    Option String × Option String :=
  if returncode = 0 then
    let output := pyStrip stdout
    let output := if output = "" ∧ stderr ≠ "" then pyStrip stderr else output
    if output = "" then (none, some "module command returned empty output")
    else (some output, none)
  else
    let error_msg := if stderr ≠ "" then stderr else "Exit code: " ++ toString returncode
    (none, some ("module command failed: " ++ error_msg))

/-! ## C6 — natural (numeric-aware) sort key

`_natural_sort_key` (src/blueprints/modules.py lines 644-653) splits a
string with `re.split` on the capturing pattern of one-or-more digits, so
the pieces alternate non-digit text (possibly empty at either edge) and
maximal digit runs; digit runs become ints, text pieces are lowercased.
Python then compares the resulting lists lexicographically. -/

/-- One piece of a natural-sort key: a lowercased text run or a numeric run. -/
inductive SortPart where
  | strPart (s : String)
  | numPart (n : Nat)
deriving DecidableEq, Repr

/-- The alternating split of `re.split` with a capturing digit-run group:
text, digits, text, digits, ..., text (edge texts may be empty).  The fuel
(starting at length + 1) strictly exceeds the number of digit runs, so it
is never exhausted on the initial call. -/
def reSplitDigitsGo : Nat → List Char → List String
  | 0, _ => []
  | fuel + 1, cs =>
    let text := cs.takeWhile (fun c => !c.isDigit)
    let rest := cs.dropWhile (fun c => !c.isDigit)
    match rest with
    | [] => [String.mk text]
    | _ =>
      let digits := rest.takeWhile Char.isDigit
      let rest2 := rest.dropWhile Char.isDigit
      String.mk text :: String.mk digits :: reSplitDigitsGo fuel rest2

/-- `re.split(r'(\d+)', text)` from `_natural_sort_key`. -/
def reSplitDigits (s : String) : List String :=
  reSplitDigitsGo (s.length + 1) s.data

/-- The `convert` helper of `_natural_sort_key`: a digit-run piece becomes
its numeric value, any other piece is lowercased. -/
def naturalSortConvert (part : String) : SortPart :=
  if part.data ≠ [] ∧ part.data.all Char.isDigit then SortPart.numPart (digitsToNat part.data)
  else SortPart.strPart (pyLower part)

/-- `_natural_sort_key(text)`. -/
def natural_sort_key (text : String) : List SortPart :=
  (reSplitDigits text).map naturalSortConvert

/-- Strict comparison of key pieces, as Python compares list elements:
ints numerically, strings lexicographically by code point.  (Two keys
produced by `natural_sort_key` only ever meet pieces of equal kind at
equal positions, matching Python, which would raise on a mixed pair.) -/
def sortPartLt : SortPart → SortPart → Bool
  | SortPart.numPart a, SortPart.numPart b => decide (a < b)
  | SortPart.strPart a, SortPart.strPart b => pyStrLt a b
  | _, _ => false

/-- Lexicographic comparison of whole keys (Python list comparison). -/
def sortKeyLt : List SortPart → List SortPart → Bool
  | [], [] => false
  | [], _ :: _ => true
  | _ :: _, [] => false
  | a :: as, b :: bs =>
    if sortPartLt a b then true
    else if sortPartLt b a then false
    else sortKeyLt as bs

/-- The comparison `sorted(..., key=_natural_sort_key)` sorts by. -/
def naturalSortLt (a b : String) : Bool :=
  sortKeyLt (natural_sort_key a) (natural_sort_key b)

/-- Stable insertion into an ascending list: the new element goes after
every element it is not strictly below. -/
def sortedInsertBy {α : Type} (lt : α → α → Bool) (x : α) : List α → List α
  | [] => [x]
  | y :: ys => if lt x y then x :: y :: ys else y :: sortedInsertBy lt x ys

/-- A stable ascending sort (the order Python's stable `sorted` returns
for the comparison `lt`). -/
def pySortBy {α : Type} (lt : α → α → Bool) (l : List α) : List α :=
  l.foldl (fun acc x => sortedInsertBy lt x acc) []

/-- `sorted(strings, key=_natural_sort_key)`. -/
def natural_sorted (l : List String) : List String :=
  pySortBy naturalSortLt l

/-- `sorted(strings)` (plain code-point order on strings). -/
def py_sorted_strings (l : List String) : List String :=
  pySortBy pyStrLt l

/-! ## Claim theorems C1, C4, C6 -/

/-- C1, counterexample: the spec says a partition-list payload written
600 seconds ago is still fresh and the background refresh is skipped; in
the code a payload 400 seconds old (well within 600) already fails the
gate, because `update_partitions_background` skips only below 300
seconds. -/
theorem partitions_refresh_ttl_counterexample :
    partitions_skip_refresh true 400 0 = false ∧ ((400 : Int) - 0 ≤ 600) := by
  decide

/-- C1, amended: the background partition refresh treats the payload
written at `mtime` as fresh (and skips) iff the file exists and
`now - mtime < 300` seconds; otherwise (and only when the update script
exists) the refresh runs. -/
theorem partitions_refresh_ttl :
    ∀ (file_exists : Bool) (now mtime : Int),
      (partitions_skip_refresh file_exists now mtime = true ↔
        file_exists = true ∧ now - mtime < 300) ∧
      ∀ script_exists : Bool,
        partitions_refresh_runs file_exists script_exists now mtime = true ↔
          script_exists = true ∧ ¬(file_exists = true ∧ now - mtime < 300) := by
  intro fe now mtime
  constructor
  · simp [partitions_skip_refresh]
  · intro se
    constructor
    · intro h
      simp only [partitions_refresh_runs, partitions_skip_refresh, Bool.and_eq_true,
        Bool.not_eq_true', Bool.and_eq_false_iff] at h
      rcases h with ⟨h1, h2⟩
      refine ⟨h2, ?_⟩
      rintro ⟨hfe, hlt⟩
      rcases h1 with h1 | h1
      · simp [hfe] at h1
      · simp at h1
        omega
    · rintro ⟨hse, hn⟩
      simp only [partitions_refresh_runs, partitions_skip_refresh, Bool.and_eq_true,
        Bool.not_eq_true', Bool.and_eq_false_iff]
      refine ⟨?_, hse⟩
      by_cases hfe : fe = true
      · right
        have hlt : ¬ (now - mtime < 300) := fun hl => hn ⟨hfe, hl⟩
        simpa using hlt
      · left
        simpa using hfe

/-- C4: when a module command exits 0, a blank (whitespace-only) stdout
with a non-blank stderr yields the stripped stderr as the output, and the
empty-output failure is reported exactly when both streams are blank. -/
theorem module_command_stderr_fallback :
    ∀ stdout stderr : String,
      (pyStrip stdout = "" → pyStrip stderr ≠ "" →
        module_command_result 0 stdout stderr = (some (pyStrip stderr), none)) ∧
      (module_command_result 0 stdout stderr
          = (none, some "module command returned empty output") ↔
        pyStrip stdout = "" ∧ pyStrip stderr = "") := by
  intro s e
  have hempty : pyStrip "" = "" := rfl
  by_cases hs : pyStrip s = ""
  · by_cases he : e = ""
    · subst he
      constructor
      · intro _ h2
        exact absurd hempty h2
      · simp [module_command_result, hs, hempty]
    · by_cases hes : pyStrip e = ""
      · constructor
        · intro _ h2
          exact absurd hes h2
        · simp [module_command_result, hs, he, hes]
      · constructor
        · intro _ _
          simp [module_command_result, hs, he, hes]
        · simp [module_command_result, hs, he, hes]
  · constructor
    · intro hs2
      exact absurd hs2 hs
    · simp [module_command_result, hs]

/-- C6: sorting with the natural sort key compares digit runs
numerically, so the three Armadillo versions come out 2.0, 9.2, 11.4.3. -/
theorem natural_sort_armadillo :
    natural_sorted ["Armadillo/9.2", "Armadillo/11.4.3", "Armadillo/2.0"] =
      ["Armadillo/2.0", "Armadillo/9.2", "Armadillo/11.4.3"] := by
  decide

/-! ## C2 / C10 — the persistent seff cache

`_call_seff` (src/blueprints/jobs.py lines 179-247).  The JSON cache file
is modelled as the dict it parses to (`_load_seff_cache` /
`_save_seff_cache` round-trip, settled separately under C8); the seff
subprocess interaction of one call is an abstract `SeffRun` outcome.  The
entry stored for a job is the dict
`{'output': ..., 'error': ..., 'timestamp': time.time()}`. -/

/-- One cached entry of `logs/seff_cache.json`. -/
structure SeffEntry where
  output : Option String
  error : Option String
  timestamp : Nat
deriving DecidableEq, Repr

/-- How the attempt to run seff for a job can end: `find_binary` fails,
the subprocess finishes with an exit code and two streams, the 10 second
timeout fires, or some other exception is raised. -/
inductive SeffRun where
  | binaryNotFound
  | finished (returncode : Int) (stdout stderr : String)
  | timedOut
  | raisedExc (msg : String)
deriving DecidableEq, Repr

/-- What one `_call_seff` call produces: the returned `(output, error)`
pair, the seff cache as left on disk, and whether the call was served
from the cache (no seff invocation at all). -/
structure SeffCallResult where
  output : Option String
  error : Option String
  cache : List (String × SeffEntry)
  servedFromCache : Bool
deriving DecidableEq, Repr

/-- The non-cache-hit part of `_call_seff` (jobs.py lines 199-247):
every failure path writes `{'output': None, 'error': msg}` into the
cache when `use_cache` holds, success writes the stdout. -/
def call_seff_uncached (job_id : String) (use_cache : Bool) (run : SeffRun) (now : Nat)
    (cache : List (String × SeffEntry)) : SeffCallResult :=
  match run with
  | SeffRun.binaryNotFound =>
    let msg := "seff binary not found in standard locations"
    { output := none, error := some msg,
      cache := if use_cache then pySetItem cache job_id ⟨none, some msg, now⟩ else cache,
      servedFromCache := false }
  | SeffRun.finished rc stdout stderr =>
    if rc = 0 then
      { output := some stdout, error := none,
        cache := if use_cache then pySetItem cache job_id ⟨some stdout, none, now⟩ else cache,
        servedFromCache := false }
    else
      let msg := "seff failed: " ++ stderr
      { output := none, error := some msg,
        cache := if use_cache then pySetItem cache job_id ⟨none, some msg, now⟩ else cache,
        servedFromCache := false }
  | SeffRun.timedOut =>
    let msg := "seff command timed out"
    { output := none, error := some msg,
      cache := if use_cache then pySetItem cache job_id ⟨none, some msg, now⟩ else cache,
      servedFromCache := false }
  | SeffRun.raisedExc m =>
    let msg := "Error calling seff: " ++ m
    { output := none, error := some msg,
      cache := if use_cache then pySetItem cache job_id ⟨none, some msg, now⟩ else cache,
      servedFromCache := false }

/-- `_call_seff(job_id, use_cache, force_refresh)`: the cache is
consulted first unless `force_refresh`; a hit returns the stored
`output`/`error` pair untouched. -/
def call_seff (job_id : String) (use_cache force_refresh : Bool) (run : SeffRun) (now : Nat)
    (cache : List (String × SeffEntry)) : SeffCallResult :=
  if use_cache && !force_refresh then
    match pyGet cache job_id with
    | some e => { output := e.output, error := e.error, cache := cache, servedFromCache := true }
    | none => call_seff_uncached job_id use_cache run now cache
  else call_seff_uncached job_id use_cache run now cache

/-- The error message `_call_seff` produces for each failing outcome
(none for a successful run). -/
def seff_error_message : SeffRun → Option String
  | SeffRun.binaryNotFound => some "seff binary not found in standard locations"
  | SeffRun.finished rc _ stderr =>
    if rc = 0 then none else some ("seff failed: " ++ stderr)
  | SeffRun.timedOut => some "seff command timed out"
  | SeffRun.raisedExc m => some ("Error calling seff: " ++ m)

/-- C2: once a seff report for a job is in the persistent cache, a
default lookup (`use_cache=True`, `force_refresh=False`) returns the
stored entry untouched — whatever its timestamp and whatever a fresh run
would produce — and never writes; the entry changes only on an explicit
forced refresh (shown last: a forced refresh with a successful run
overwrites it). -/
theorem seff_cache_permanent (job_id : String) (e : SeffEntry)
    (cache : List (String × SeffEntry)) (h : pyGet cache job_id = some e) :
    (∀ (run : SeffRun) (now : Nat),
      call_seff job_id true false run now cache =
        { output := e.output, error := e.error, cache := cache, servedFromCache := true }) ∧
    (∀ (use_cache : Bool) (run : SeffRun) (now : Nat),
      pyGet (call_seff job_id use_cache false run now cache).cache job_id = some e) ∧
    (∀ (stdout stderr : String) (now : Nat),
      pyGet (call_seff job_id true true (SeffRun.finished 0 stdout stderr) now cache).cache
        job_id = some { output := some stdout, error := none, timestamp := now }) := by
  refine ⟨?_, ?_, ?_⟩
  · intro run now
    simp [call_seff, h]
  · intro uc run now
    cases uc with
    | true => simp [call_seff, h]
    | false =>
      cases run <;>
        simp [call_seff, call_seff_uncached, h] <;>
        split <;> simp [h]
  · intro stdout stderr now
    simp [call_seff, call_seff_uncached, pyGet_pySetItem_self]

/-- C2 witness: with job 42 cached as output "report" at timestamp 7, a
much later default lookup returns exactly that entry from the cache. -/
theorem seff_cache_permanent_witness :
    call_seff "42" true false SeffRun.timedOut 99999
        [("42", { output := some "report", error := none, timestamp := 7 })] =
      { output := some "report", error := none,
        cache := [("42", { output := some "report", error := none, timestamp := 7 })],
        servedFromCache := true } :=
  (seff_cache_permanent "42" { output := some "report", error := none, timestamp := 7 }
    [("42", { output := some "report", error := none, timestamp := 7 })] (by decide)).1
    SeffRun.timedOut 99999

/-- C10: for a job not yet cached, a default `_call_seff` call whose seff
attempt fails in any way (missing binary, nonzero exit, timeout, or other
exception) returns that failure, writes the error message itself into the
persistent cache, and every later default call returns the cached error
from the cache without running seff again. -/
theorem seff_failures_cached (job_id : String) (cache : List (String × SeffEntry))
    (run : SeffRun) (msg : String) (now : Nat)
    (hmiss : pyGet cache job_id = none)
    (hfail : seff_error_message run = some msg) :
    (call_seff job_id true false run now cache).output = none ∧
    (call_seff job_id true false run now cache).error = some msg ∧
    pyGet (call_seff job_id true false run now cache).cache job_id
      = some { output := none, error := some msg, timestamp := now } ∧
    (∀ (run2 : SeffRun) (now2 : Nat),
      call_seff job_id true false run2 now2 (call_seff job_id true false run now cache).cache =
        { output := none, error := some msg,
          cache := (call_seff job_id true false run now cache).cache,
          servedFromCache := true }) := by
  have hres : call_seff job_id true false run now cache =
      { output := none, error := some msg,
        cache := pySetItem cache job_id { output := none, error := some msg, timestamp := now },
        servedFromCache := false } := by
    cases run with
    | binaryNotFound =>
      simp [seff_error_message] at hfail
      simp [call_seff, call_seff_uncached, hmiss, hfail]
    | finished rc stdout stderr =>
      by_cases hrc : rc = 0
      · simp [seff_error_message, hrc] at hfail
      · simp [seff_error_message, hrc] at hfail
        simp [call_seff, call_seff_uncached, hmiss, hrc, hfail]
    | timedOut =>
      simp [seff_error_message] at hfail
      simp [call_seff, call_seff_uncached, hmiss, hfail]
    | raisedExc m =>
      simp [seff_error_message] at hfail
      simp [call_seff, call_seff_uncached, hmiss, ← hfail]
  refine ⟨by simp [hres], by simp [hres], by simp [hres, pyGet_pySetItem_self], ?_⟩
  intro run2 now2
  rw [hres]
  simp [call_seff, pyGet_pySetItem_self]

/-- C10 witness: a timeout for uncached job 7 is itself cached, and the
follow-up default call is served from the cache with the same error. -/
theorem seff_failures_cached_witness :
    pyGet (call_seff "7" true false SeffRun.timedOut 3 []).cache "7"
        = some { output := none, error := some "seff command timed out", timestamp := 3 } ∧
    call_seff "7" true false SeffRun.binaryNotFound 8
        (call_seff "7" true false SeffRun.timedOut 3 []).cache =
      { output := none, error := some "seff command timed out",
        cache := (call_seff "7" true false SeffRun.timedOut 3 []).cache,
        servedFromCache := true } :=
  ⟨(seff_failures_cached "7" [] SeffRun.timedOut "seff command timed out" 3 rfl rfl).2.2.1,
   (seff_failures_cached "7" [] SeffRun.timedOut "seff command timed out" 3 rfl rfl).2.2.2
     SeffRun.binaryNotFound 8⟩

/-! ## C3 / C5 — the module-refresh single-flight guard

The guard is the module-level flag `_streaming_in_progress` of
src/blueprints/modules.py (lines 36-37), read and written under
`_streaming_lock`, so each route's check-and-set runs atomically; the
module cache globals `_modules_cache` / `_modules_cache_timestamp`
(lines 32-33) are cleared by `refresh_start`.  The whole guard state is
in-process: nothing is written to the filesystem, and re-importing the
module (a process restart) re-runs the initializers on lines 32-37. -/

/-- One grouped entry of the modules cache. -/
structure GroupedModule where
  name : String
  versions : List String
  description : String
  category : String
deriving DecidableEq, Repr

/-- The module-level mutable globals of src/blueprints/modules.py. -/
structure ModulesGlobals where
  streaming_in_progress : Bool
  modules_cache : Option (List GroupedModule)
  modules_cache_timestamp : Option Nat
deriving DecidableEq, Repr

/-- Their initial values (modules.py lines 32-37), as set at import. -/
def modules_globals_init : ModulesGlobals :=
  { streaming_in_progress := false, modules_cache := none, modules_cache_timestamp := none }

/-- A process restart re-imports the module: the previous process's
guard state does not flow into the new globals. -/
def modules_globals_after_restart (_previous : ModulesGlobals) : ModulesGlobals :=
  modules_globals_init

/-- `_clear_modules_cache` (modules.py lines 770-774). -/
def clear_modules_cache (g : ModulesGlobals) : ModulesGlobals :=
  { g with modules_cache := none, modules_cache_timestamp := none }

/-- The two responses of the `refresh-start` route. -/
inductive RefreshStartResp where
  | started
  | alreadyInProgress
deriving DecidableEq, Repr

/-- `refresh_start` (modules.py lines 854-866): under the lock, a set
flag means reply 409 and touch nothing; otherwise set the flag and clear
the cache. -/
def refresh_start (g : ModulesGlobals) : RefreshStartResp × ModulesGlobals :=
  if g.streaming_in_progress then (RefreshStartResp.alreadyInProgress, g)
  else (RefreshStartResp.started, clear_modules_cache { g with streaming_in_progress := true })

/-- The HTTP status each `refresh_start` response carries. -/
def refresh_start_http_status : RefreshStartResp → Nat
  | RefreshStartResp.started => 200
  | RefreshStartResp.alreadyInProgress => 409

/-- The `finally` release of the streaming routes (modules.py line 914). -/
def release_streaming (g : ModulesGlobals) : ModulesGlobals :=
  { g with streaming_in_progress := false }

/-- `refresh_status` (modules.py lines 1051-1055): reports the flag. -/
def refresh_status (g : ModulesGlobals) : Bool := g.streaming_in_progress

/-- `n` consecutive `refresh_start` calls (the responses in order and the
final state). -/
def refresh_start_iter (g : ModulesGlobals) : Nat → List RefreshStartResp × ModulesGlobals
  | 0 => ([], g)
  | n + 1 =>
    let r := refresh_start g
    let rest := refresh_start_iter r.2 n
    (r.1 :: rest.1, rest.2)

theorem refresh_start_iter_held (g : ModulesGlobals)
    (h : g.streaming_in_progress = true) :
    ∀ n, refresh_start_iter g n = (List.replicate n RefreshStartResp.alreadyInProgress, g) := by
  intro n
  induction n with
  | zero => rfl
  | succ n ih => simp [refresh_start_iter, refresh_start, h, ih, List.replicate_succ]

/-- C3: while a module-catalog refresh is in progress, every further
`refresh-start` attempt fails atomically (response 409, state — hence
cache and guard — untouched, so no duplicate work starts), and from a
free guard exactly the first attempt succeeds: any number of follow-up
attempts before the release yield zero `started` responses. -/
theorem modules_refresh_single_flight (g : ModulesGlobals)
    (hheld : g.streaming_in_progress = true) :
    (∀ n, refresh_start_iter g n = (List.replicate n RefreshStartResp.alreadyInProgress, g)) ∧
    refresh_start_http_status RefreshStartResp.alreadyInProgress = 409 ∧
    (∀ g0 : ModulesGlobals, g0.streaming_in_progress = false →
      (refresh_start g0).1 = RefreshStartResp.started ∧
      (refresh_start g0).2.streaming_in_progress = true ∧
      ∀ n, (refresh_start_iter (refresh_start g0).2 n).1.count RefreshStartResp.started = 0 ∧
        (refresh_start_iter (refresh_start g0).2 n).2 = (refresh_start g0).2) := by
  refine ⟨refresh_start_iter_held g hheld, rfl, ?_⟩
  intro g0 hfree
  have hstart : refresh_start g0 =
      (RefreshStartResp.started, clear_modules_cache { g0 with streaming_in_progress := true }) := by
    simp [refresh_start, hfree]
  have hheld2 : (refresh_start g0).2.streaming_in_progress = true := by
    simp [hstart, clear_modules_cache]
  refine ⟨by simp [hstart], hheld2, ?_⟩
  intro n
  rw [refresh_start_iter_held (refresh_start g0).2 hheld2 n]
  constructor
  · simp [List.count_replicate]
  · rfl

/-- C3 witness: with the guard initially free, the first of four
consecutive refresh-start calls succeeds and the three calls issued
while the first holds the guard all fail without changing state. -/
theorem modules_refresh_single_flight_witness :
    (refresh_start modules_globals_init).1 = RefreshStartResp.started ∧
    (refresh_start_iter (refresh_start modules_globals_init).2 3).1.count
        RefreshStartResp.started = 0 ∧
    (refresh_start_iter (refresh_start modules_globals_init).2 3).2 =
      (refresh_start modules_globals_init).2 :=
  have h := (modules_refresh_single_flight
    { streaming_in_progress := true, modules_cache := none, modules_cache_timestamp := none }
    rfl).2.2 modules_globals_init rfl
  ⟨h.1, (h.2.2 3).1, (h.2.2 3).2⟩

/-- C5, counterexample: the claim says a restarted process still
observes the module-catalog refresh as in progress (the guard being
persisted as a filesystem touch-file); in the code the guard is only the
module-level boolean, so after a restart of a process whose refresh was
in flight, `refresh_status` reports false. -/
theorem modules_lock_persistence_counterexample :
    refresh_status (modules_globals_after_restart
      { streaming_in_progress := true, modules_cache := none,
        modules_cache_timestamp := none }) = false := rfl

/-- C5, amended: the module-catalog refresh guard is only the in-process
flag `_streaming_in_progress`: `refresh_status` reports exactly that
flag, there is no filesystem lock artifact, no `acquired_at` and no
5-minute ceiling, and a process restart re-initializes the guard to
false whatever the previous process was doing. -/
theorem modules_guard_process_local :
    ∀ g : ModulesGlobals,
      refresh_status g = g.streaming_in_progress ∧
      modules_globals_after_restart g = modules_globals_init ∧
      modules_globals_init.streaming_in_progress = false ∧
      refresh_status (modules_globals_after_restart g) = false :=
  fun _ => ⟨rfl, rfl, rfl, rfl⟩

/-! ## C8 / C9 — the JSON cache files

`_load_seff_cache` / `_save_seff_cache` (src/blueprints/jobs.py lines
121-152) and `_load_descriptions_cache` / `_save_descriptions_cache`
(src/blueprints/modules.py lines 194-259).  A cache file is modelled by
what `json.load` does with it: `none` — the file is missing; `some none`
— it exists but `json.load` raises (invalid JSON); `some (some v)` — it
parses to the value `v`.  Every `except` of the sources is a total match
arm here, so a loader returning its `Empty` value on a corrupt file is
the model of "degrades without raising".  `json.dump` of a dict yields a
file that parses back to that dict, so a save stores the value itself. -/

/-- A parsed JSON value, as far as the cache code distinguishes them:
a string, an object, or anything else. -/
inductive PyVal where
  | pstr (s : String)
  | pdict (entries : List (String × PyVal))
  | pother

/-- `_load_seff_cache`: the parsed dict, or `{}` when the file is
missing, unreadable, or not an object. -/
def load_seff_cache : Option (Option PyVal) → List (String × PyVal)
  | some (some (PyVal.pdict d)) => d
  | _ => []

/-- `_save_seff_cache`: rewrite the file with the serialized dict. -/
def save_seff_cache (cache : List (String × PyVal)) : Option (Option PyVal) :=
  some (some (PyVal.pdict cache))

/-- `_load_descriptions_cache`: the `descriptions` sub-dict of
`config/module_categories.json`, or `{}` when the file is missing,
unreadable, not an object, or its `descriptions` value is not a dict. -/
def load_descriptions_cache : Option (Option PyVal) → List (String × PyVal)
  | some (some (PyVal.pdict d)) =>
    match pyGet d "descriptions" with
    | some (PyVal.pdict dd) => dd
    | _ => []
  | _ => []

/-- The `existing_data` a `_save_descriptions_cache` call starts from:
the parsed file when it is an object, `{}` otherwise. -/
def cache_file_dict : Option (Option PyVal) → List (String × PyVal)
  | some (some (PyVal.pdict d)) => d
  | _ => []

/-- The `categories` kept by `_save_descriptions_cache`: every entry of
the existing object except the `descriptions` key. -/
def dict_categories (d : List (String × PyVal)) : List (String × PyVal) :=
  d.filter (fun p => p.1 != "descriptions")

/-- `existing_data.get('descriptions', {})`. -/
def dict_descriptions (d : List (String × PyVal)) : PyVal :=
  (pyGet d "descriptions").getD (PyVal.pdict [])

/-- The merge step of `_save_descriptions_cache`: update the existing
descriptions dict with the new map, or start from the new map when the
existing value is not a dict. -/
def merge_descriptions (d cache : List (String × PyVal)) : List (String × PyVal) :=
  match dict_descriptions d with
  | PyVal.pdict dd => pyUpdate dd cache
  | _ => cache

/-- `_save_descriptions_cache(cache)`: rewrite the file with
`{**categories, 'descriptions': merged}`. -/
def save_descriptions_cache (file : Option (Option PyVal))
    (cache : List (String × PyVal)) : Option (Option PyVal) :=
  some (some (PyVal.pdict
    (dict_categories (cache_file_dict file) ++
      [("descriptions", PyVal.pdict (merge_descriptions (cache_file_dict file) cache))])))

theorem pyGet_eq_none_of_not_mem {V : Type} (d : List (String × V)) (k : String)
    (h : k ∉ d.map Prod.fst) : pyGet d k = none := by
  induction d with
  | nil => rfl
  | cons p ps ih =>
    simp only [List.map_cons, List.mem_cons, not_or] at h
    have hne : ¬ (p.1 = k) := fun he => h.1 he.symm
    simp [pyGet, hne, ih h.2]

theorem pyGet_append_singleton {V : Type} (A : List (String × V)) (k : String) (v : V)
    (h : ∀ p ∈ A, p.1 ≠ k) : pyGet (A ++ [(k, v)]) k = some v := by
  induction A with
  | nil => simp [pyGet]
  | cons p ps ih =>
    have hne : ¬ (p.1 = k) := h p (List.mem_cons_self _ _)
    simp only [List.cons_append, pyGet, hne, if_false]
    exact ih (fun q hq => h q (List.mem_cons_of_mem _ hq))

theorem dict_categories_no_descriptions (d : List (String × PyVal)) :
    ∀ p ∈ dict_categories d, p.1 ≠ "descriptions" := by
  intro p hp
  have := List.of_mem_filter hp
  simpa using this

/-- What the descriptions loader reads back right after a save: exactly
the merged map. -/
theorem load_save_descriptions (file : Option (Option PyVal))
    (cache : List (String × PyVal)) :
    load_descriptions_cache (save_descriptions_cache file cache) =
      merge_descriptions (cache_file_dict file) cache := by
  simp only [save_descriptions_cache, load_descriptions_cache]
  rw [pyGet_append_singleton _ _ _ (dict_categories_no_descriptions _)]

/-- Updating a dict with itself is the identity (keys unique). -/
theorem pyUpdate_self {V : Type} (c : List (String × V))
    (hnd : (c.map Prod.fst).Nodup) : pyUpdate c c = c :=
  pyUpdate_of_all_present c c
    (fun p hp => pyGet_of_mem_nodup c p.1 p.2 (by simpa using hp) hnd)

/-- C8: a missing or unparseable cache file loads as the empty dict for
both the seff cache and the descriptions cache (the loaders are total:
no exception escapes), and a subsequent write of a payload to the
missing/corrupt file succeeds and is then readable — in full for the
seff cache, per key for the merged descriptions cache. -/
theorem cache_corrupt_resilience (cache : List (String × PyVal)) (k : String) (v : PyVal)
    (hnd : (cache.map Prod.fst).Nodup) (hmem : (k, v) ∈ cache) :
    load_seff_cache none = [] ∧
    load_seff_cache (some none) = [] ∧
    load_descriptions_cache none = [] ∧
    load_descriptions_cache (some none) = [] ∧
    load_seff_cache (save_seff_cache cache) = cache ∧
    pyGet (load_descriptions_cache (save_descriptions_cache none cache)) k = some v ∧
    pyGet (load_descriptions_cache (save_descriptions_cache (some none) cache)) k = some v := by
  refine ⟨rfl, rfl, rfl, rfl, rfl, ?_, ?_⟩ <;>
  · rw [load_save_descriptions]
    exact pyGet_pyUpdate_of_mem cache k v hmem hnd []

/-- C8 witness: a singleton payload written over a corrupt (and over a
missing) file is read back. -/
theorem cache_corrupt_resilience_witness :
    pyGet (load_descriptions_cache
        (save_descriptions_cache none [("GCC", PyVal.pstr "the GNU compilers")]))
      "GCC" = some (PyVal.pstr "the GNU compilers") ∧
    pyGet (load_descriptions_cache
        (save_descriptions_cache (some none) [("GCC", PyVal.pstr "the GNU compilers")]))
      "GCC" = some (PyVal.pstr "the GNU compilers") :=
  ⟨(cache_corrupt_resilience [("GCC", PyVal.pstr "the GNU compilers")] "GCC"
      (PyVal.pstr "the GNU compilers") (by decide)
      (List.mem_singleton.mpr rfl)).2.2.2.2.2.1,
   (cache_corrupt_resilience [("GCC", PyVal.pstr "the GNU compilers")] "GCC"
      (PyVal.pstr "the GNU compilers") (by decide)
      (List.mem_singleton.mpr rfl)).2.2.2.2.2.2⟩

/-- C9: the description merge-and-save step is idempotent — running
`_save_descriptions_cache` twice with the same new-descriptions map
leaves the same file as running it once, for every starting file content
— and it preserves every descriptions entry whose key the new map does
not touch. -/
theorem descriptions_merge_idempotent (file : Option (Option PyVal))
    (cache : List (String × PyVal)) (hnd : (cache.map Prod.fst).Nodup) :
    save_descriptions_cache (save_descriptions_cache file cache) cache =
      save_descriptions_cache file cache ∧
    (∀ k, k ∉ cache.map Prod.fst →
      pyGet (load_descriptions_cache (save_descriptions_cache file cache)) k =
        pyGet (load_descriptions_cache file) k) := by
  set d := cache_file_dict file with hd
  have hdict2 : cache_file_dict (save_descriptions_cache file cache) =
      dict_categories d ++ [("descriptions", PyVal.pdict (merge_descriptions d cache))] := rfl
  have hcats2 : dict_categories (cache_file_dict (save_descriptions_cache file cache)) =
      dict_categories d := by
    rw [hdict2]
    simp only [dict_categories, List.filter_append, List.filter_filter]
    simp [List.filter]
  have hdesc2 : dict_descriptions (cache_file_dict (save_descriptions_cache file cache)) =
      PyVal.pdict (merge_descriptions d cache) := by
    rw [hdict2]
    simp only [dict_descriptions]
    rw [pyGet_append_singleton _ _ _ (dict_categories_no_descriptions _)]
    rfl
  have hmerge2 : merge_descriptions (cache_file_dict (save_descriptions_cache file cache))
      cache = merge_descriptions d cache := by
    rw [merge_descriptions, hdesc2]
    rcases hcase : dict_descriptions d with s | dd | _
    · simp [merge_descriptions, hcase, pyUpdate_self cache hnd]
    · simp [merge_descriptions, hcase, pyUpdate_idem dd cache hnd]
    · simp [merge_descriptions, hcase, pyUpdate_self cache hnd]
  constructor
  · rw [save_descriptions_cache, hcats2, hmerge2]
    rfl
  · intro k hk
    rw [load_save_descriptions]
    rcases hfile : pyGet d "descriptions" with _ | val
    · have hload : load_descriptions_cache file = [] := by
        rcases file with _ | f2
        · rfl
        · rcases f2 with _ | pv
          · rfl
          · rcases pv with s | dd | _
            · rfl
            · simp only [load_descriptions_cache]
              have : pyGet dd "descriptions" = none := by
                have hdd : d = dd := by rw [hd]; rfl
                rw [← hdd, hfile]
              rw [this]
            · rfl
      rw [hload]
      have : merge_descriptions d cache = pyUpdate [] cache := by
        rw [merge_descriptions, dict_descriptions, hfile]
        rfl
      rw [this, pyGet_pyUpdate_not_mem cache k hk []]
    · rcases val with s | ddesc | _
      · have hload : load_descriptions_cache file = [] := by
          rcases file with _ | f2
          · rfl
          · rcases f2 with _ | pv
            · rfl
            · rcases pv with s2 | dd | _
              · rfl
              · simp only [load_descriptions_cache]
                have hdd : d = dd := by rw [hd]; rfl
                rw [← hdd, hfile]
              · rfl
        rw [hload]
        have : merge_descriptions d cache = cache := by
          rw [merge_descriptions, dict_descriptions, hfile]
          rfl
        rw [this]
        exact pyGet_eq_none_of_not_mem cache k hk
      · have hload : load_descriptions_cache file = ddesc := by
          rcases file with _ | f2
          · simp [cache_file_dict] at hd
            rw [hd] at hfile
            simp [pyGet] at hfile
          · rcases f2 with _ | pv
            · rw [hd] at hfile
              simp [cache_file_dict, pyGet] at hfile
            · rcases pv with s2 | dd | _
              · rw [hd] at hfile
                simp [cache_file_dict, pyGet] at hfile
              · simp only [load_descriptions_cache]
                have hdd : d = dd := by rw [hd]; rfl
                rw [← hdd, hfile]
              · rw [hd] at hfile
                simp [cache_file_dict, pyGet] at hfile
        rw [hload]
        have : merge_descriptions d cache = pyUpdate ddesc cache := by
          rw [merge_descriptions, dict_descriptions, hfile]
          rfl
        rw [this]
        exact pyGet_pyUpdate_not_mem cache k hk ddesc
      · have hload : load_descriptions_cache file = [] := by
          rcases file with _ | f2
          · rfl
          · rcases f2 with _ | pv
            · rfl
            · rcases pv with s2 | dd | _
              · rfl
              · simp only [load_descriptions_cache]
                have hdd : d = dd := by rw [hd]; rfl
                rw [← hdd, hfile]
              · rfl
        rw [hload]
        have : merge_descriptions d cache = cache := by
          rw [merge_descriptions, dict_descriptions, hfile]
          rfl
        rw [this]
        exact pyGet_eq_none_of_not_mem cache k hk

/-- C9 witness: merging the same two descriptions twice over a file that
already has a category entry and an older description gives the same
file as merging once. -/
theorem descriptions_merge_idempotent_witness :
    save_descriptions_cache
        (save_descriptions_cache
          (some (some (PyVal.pdict [("Armadillo", PyVal.pstr "Math/Statistics"),
            ("descriptions", PyVal.pdict [("GCC", PyVal.pstr "old text")])])))
          [("GCC", PyVal.pstr "new text"), ("zlib", PyVal.pstr "compression")])
        [("GCC", PyVal.pstr "new text"), ("zlib", PyVal.pstr "compression")] =
      save_descriptions_cache
        (some (some (PyVal.pdict [("Armadillo", PyVal.pstr "Math/Statistics"),
          ("descriptions", PyVal.pdict [("GCC", PyVal.pstr "old text")])])))
        [("GCC", PyVal.pstr "new text"), ("zlib", PyVal.pstr "compression")] :=
  (descriptions_merge_idempotent
    (some (some (PyVal.pdict [("Armadillo", PyVal.pstr "Math/Statistics"),
      ("descriptions", PyVal.pdict [("GCC", PyVal.pstr "old text")])])))
    [("GCC", PyVal.pstr "new text"), ("zlib", PyVal.pstr "compression")] (by decide)).1

/-! ## C7 — the streaming module-catalog scan

`_get_all_modules_two_stage_streaming` (src/blueprints/modules.py lines
392-551) together with its helpers `_parse_module_spider_output` (lines
357-389), `_natural_sort_key` (644-653) and `_categorize_module`
(655-701).  The generator is embedded as a function producing the list
of yielded events.  Its interactions with the outside world are
parameters: the `module -t spider` command result (`Except` error or
output), the categories config (`None` or the loaded dict), the
persistent descriptions cache, the per-family detail-fetch outcome
(`none` — skipped: empty output, timeout or exception; `some s` — a
detail record whose description is `s`), and the order in which
`as_completed` delivers the worker futures (each submitted family
exactly once, abstracted to any list drawn from the families).  In
`fetch_description` every path returns `error = None`, so the consumer's
failure branches are dead: each completed future yields one
`module_update` event. -/

/-- One event yielded by the streaming scan (the dict `type` tags of the
source become constructors). -/
inductive StreamEvent where
  | progress (message : String) (total current : Nat)
  | errorEv (message : String)
  | moduleEv (m : GroupedModule)
  | descriptionsStart (message : String)
  | moduleUpdate (module_name description : String)
  | descriptionsComplete (message : String)
  | completeEv (message : String) (total_modules : Nat)

/-- `modules_dict[family].append(line)` preceded by
`modules_dict.setdefault`-style creation. -/
def dict_append_version (d : List (String × List String)) (fam line : String) :
    List (String × List String) :=
  if (pyGet d fam).isSome then
    d.map (fun p => if p.1 = fam then (p.1, p.2 ++ [line]) else p)
  else d ++ [(fam, [line])]

/-- `if line not in modules_dict: modules_dict[line] = []`. -/
def dict_ensure_family (d : List (String × List String)) (fam : String) :
    List (String × List String) :=
  if (pyGet d fam).isSome then d else d ++ [(fam, [])]

/-- One line of `_parse_module_spider_output`: strip, skip empties and
namespace directories, else classify as full module/version (family =
all but the last segment when nested, first segment otherwise) or bare
family name. -/
def spider_line_step (d : List (String × List String)) (raw_line : String) :
    List (String × List String) :=
  let line := pyStrip raw_line
  if line = "" then d
  else if pyEndsWithChar line '/' then d
  else if pyContainsChar line '/' then
    let parts := pySplitOn line '/'
    if parts.length ≥ 2 then
      let family :=
        if parts.length > 2 then pyIntercalate '/' parts.dropLast else parts.headD ""
      dict_append_version d family line
    else d
  else dict_ensure_family d line

/-- `_parse_module_spider_output(output)`. -/
def parse_module_spider_output (output : String) : List (String × List String) :=
  (pySplitOn output '\n').foldl spider_line_step []

/-- The base display name derived from the naturally-sorted version list
(all but the last segment of the first version when nested, its first
segment otherwise, the family itself when there are no versions). -/
def base_name_of (versions : List String) (family : String) : String :=
  match versions with
  | [] => family
  | first :: _ =>
    if pyContainsChar first '/' then
      let parts := pySplitOn first '/'
      if parts.length > 2 then pyIntercalate '/' parts.dropLast else parts.headD ""
    else family

/-- `sorted(modules_dict[family], key=_natural_sort_key)` (with `.get`
fallback to the empty list). -/
def sorted_versions_of (d : List (String × List String)) (fam : String) : List String :=
  natural_sorted ((pyGet d fam).getD [])

/-- The entry `module_name_map[family]` — the base name that both the
`module` event and the later `module_update` event carry. -/
def stream_base_name (d : List (String × List String)) (fam : String) : String :=
  base_name_of (sorted_versions_of d fam) fam

/-- The progressively-shorter path-prefix probe of `_categorize_module`
(largest prefix first, each tried with and without a trailing slash). -/
def category_path_probe (config : List (String × String)) (parts : List String) :
    Nat → Option String
  | 0 => none
  | i + 1 =>
    let pfx := pyIntercalate '/' (parts.take (i + 1))
    match pyGet config pfx with
    | some c => some c
    | none =>
      match pyGet config (pfx ++ "/") with
      | some c => some c
      | none => category_path_probe config parts i

/-- `_categorize_module(module_name, categories_config)`. -/
def categorize_module (module_name : String) (config : Option (List (String × String))) :
    String :=
  match config with
  | none => "Misc"
  | some cfg =>
    if cfg.isEmpty then "Misc"
    else
      match pyGet cfg module_name with
      | some c => c
      | none =>
        let parts := pySplitOn module_name '/'
        match category_path_probe cfg parts parts.length with
        | some c => c
        | none =>
          if pyStartsWith module_name "rc/" then
            match pyGet cfg "rc" with
            | some c => c
            | none => "Research Computing modules"
          else if pyStartsWith (pyLower module_name) "cuda" ∧ module_name ≠ "CUDA" then
            match pyGet cfg "cuda" with
            | some c => c
            | none => "Compilers/Toolchains"
          else "Misc"

/-- The grouped module yielded for a family in the first phase (name,
naturally-sorted versions, empty description, category). -/
def stream_grouped_module (cfg : Option (List (String × String)))
    (d : List (String × List String)) (fam : String) : GroupedModule :=
  { name := stream_base_name d fam,
    versions := sorted_versions_of d fam,
    description := "",
    category := categorize_module (stream_base_name d fam) cfg }

/-- The description delivered for a family: the cached one when present,
else the fetched record's description, else the empty string (skipped
families still get an update with an empty description). -/
def stream_desc_for (dcache : List (String × String)) (details : String → Option String)
    (fam : String) : String :=
  match pyGet dcache fam with
  | some cached => cached
  | none => (details fam).getD ""

/-- The description-phase events: per completed future a periodic
progress event (every tenth completion and at the last family) followed
by the `module_update` keyed by the family's base name. -/
def stream_updates (base_of desc_for : String → String) (total : Nat) :
    Nat → List String → List StreamEvent
  | _, [] => []
  | completed_before, fam :: rest =>
    let completed := completed_before + 1
    (if completed % 10 = 0 ∨ completed = total then
      [StreamEvent.progress
        ("Loading descriptions: " ++ toString completed ++ "/" ++ toString total)
        total completed]
    else []) ++
    (StreamEvent.moduleUpdate (base_of fam) (desc_for fam) ::
      stream_updates base_of desc_for total completed rest)

/-- The two events before the first-phase `module` events. -/
def stream_header (total : Nat) : List StreamEvent :=
  [StreamEvent.progress "Fetching module list..." 0 0,
   StreamEvent.progress ("Found " ++ toString total ++ " module families with versions")
     total 0]

/-- The two events between the `module` phase and the description phase. -/
def stream_mid (total : Nat) : List StreamEvent :=
  [StreamEvent.descriptionsStart "Loading descriptions...",
   StreamEvent.progress ("Displayed " ++ toString total ++ " modules, loading descriptions...")
     total 0]

/-- The closing events of a completed scan. -/
def stream_tail (d : List (String × List String)) : List StreamEvent :=
  [StreamEvent.descriptionsComplete "All descriptions loaded",
   StreamEvent.completeEv
     ("Retrieved " ++ toString ((d.map (fun p => p.2.length)).sum) ++
       " module versions across " ++ toString d.length ++ " modules")
     d.length]

/-- `_get_all_modules_two_stage_streaming` as the list of events one run
yields. -/
def get_all_modules_two_stage_streaming (cmd : Except String String)
    (cfg : Option (List (String × String))) (dcache : List (String × String))
    (details : String → Option String) (completion_order : List String) :
    List StreamEvent :=
  match cmd with
  | Except.error e =>
    [StreamEvent.progress "Fetching module list..." 0 0,
     StreamEvent.errorEv ("Failed to get module list: " ++ e)]
  | Except.ok output =>
    if pyStrip output = "" then
      [StreamEvent.progress "Fetching module list..." 0 0,
       StreamEvent.errorEv "module -t spider returned empty output"]
    else
      let d := parse_module_spider_output output
      let families := py_sorted_strings (d.map Prod.fst)
      let total := families.length
      stream_header total ++
      families.map (fun fam => StreamEvent.moduleEv (stream_grouped_module cfg d fam)) ++
      stream_mid total ++
      stream_updates (stream_base_name d) (stream_desc_for dcache details) total 0
        completion_order ++
      stream_tail d

/-- The families a scan submits detail-fetch futures for (empty when the
listing itself failed, in which case no update events occur at all). -/
def stream_families_of (cmd : Except String String) : List String :=
  match cmd with
  | Except.error _ => []
  | Except.ok output =>
    if pyStrip output = "" then []
    else py_sorted_strings ((parse_module_spider_output output).map Prod.fst)

theorem stream_updates_shape (base_of desc_for : String → String) (total : Nat) :
    ∀ (order : List String) (c0 : Nat) (e : StreamEvent),
      e ∈ stream_updates base_of desc_for total c0 order →
      (∃ msg t cur, e = StreamEvent.progress msg t cur) ∨
      (∃ fam, fam ∈ order ∧
        e = StreamEvent.moduleUpdate (base_of fam) (desc_for fam)) := by
  intro order
  induction order with
  | nil =>
    intro c0 e he
    simp [stream_updates] at he
  | cons fam rest ih =>
    intro c0 e he
    simp only [stream_updates, List.mem_append, List.mem_cons] at he
    rcases he with he | he | he
    · left
      split at he
      · obtain rfl := List.mem_singleton.mp he
        exact ⟨_, _, _, rfl⟩
      · simp at he
    · right
      exact ⟨fam, List.mem_cons_self _ _, he⟩
    · rcases ih (c0 + 1) e he with hp | ⟨fam2, hmem, heq⟩
      · left
        exact hp
      · right
        exact ⟨fam2, List.mem_cons_of_mem _ hmem, heq⟩

theorem last_only_decomp {α : Type} (P : α → Prop) :
    ∀ (A : List α) (c : α), (∀ e ∈ A, ¬ P e) →
      ∀ (pre : List α) (x : α) (suf : List α),
        P x → A ++ [c] = pre ++ x :: suf → suf = [] := by
  intro A
  induction A with
  | nil =>
    intro c _ pre x suf _ heq
    cases pre with
    | nil =>
      have h2 : ([] : List α) = suf := by
        simpa using congrArg List.tail heq
      exact h2.symm
    | cons p pre2 =>
      have hlen := congrArg List.length heq
      simp at hlen
  | cons a A2 ih =>
    intro c hA pre x suf hPx heq
    cases pre with
    | nil =>
      simp only [List.cons_append, List.nil_append] at heq
      have hax : a = x := by
        simpa using congrArg List.head? heq
      exact absurd (hax ▸ hPx) (hA a (List.mem_cons_self _ _))
    | cons p pre2 =>
      simp only [List.cons_append] at heq
      have htail : A2 ++ [c] = pre2 ++ x :: suf := by
        simpa using congrArg List.tail heq
      exact ih c (fun e he => hA e (List.mem_cons_of_mem _ he)) pre2 x suf hPx htail

theorem decomp_mem_parts {α : Type} (B C pre suf : List α) (x : α)
    (hxB : x ∉ B) (heq : B ++ C = pre ++ x :: suf) :
    (∀ b ∈ B, b ∈ pre) ∧ x ∈ C := by
  rcases List.append_eq_append_iff.mp heq with ⟨mid, h1, h2⟩ | ⟨mid, h1, h2⟩
  · constructor
    · intro b hb
      rw [h1]
      exact List.mem_append_left _ hb
    · rw [h2]
      exact List.mem_append_right _ (List.mem_cons_self _ _)
  · cases mid with
    | nil =>
      simp only [List.append_nil] at h1
      simp only [List.nil_append] at h2
      constructor
      · intro b hb
        rw [← h1]
        exact hb
      · rw [← h2]
        exact List.mem_cons_self _ _
    | cons m mid2 =>
      have hx : x = m := by
        simpa using congrArg List.head? h2
      have hmem : x ∈ B := by
        rw [h1, hx]
        exact List.mem_append_right _ (List.mem_cons_self _ _)
      exact absurd hmem hxB

theorem stream_phase_update_earlier (d : List (String × List String))
    (cfg : Option (List (String × String))) (desc_for : String → String)
    (fams order : List String) (total : Nat)
    (horder : ∀ fam ∈ order, fam ∈ fams) :
    ∀ (pre suf : List StreamEvent) (name dsc : String),
      stream_header total ++
        fams.map (fun fam => StreamEvent.moduleEv (stream_grouped_module cfg d fam)) ++
        stream_mid total ++
        stream_updates (stream_base_name d) desc_for total 0 order ++
        stream_tail d = pre ++ StreamEvent.moduleUpdate name dsc :: suf →
      ∃ m : GroupedModule, StreamEvent.moduleEv m ∈ pre ∧ m.name = name := by
  intro pre suf name dsc heq
  have hassoc :
      stream_header total ++
        fams.map (fun fam => StreamEvent.moduleEv (stream_grouped_module cfg d fam)) ++
        stream_mid total ++
        stream_updates (stream_base_name d) desc_for total 0 order ++
        stream_tail d =
      (stream_header total ++
        fams.map (fun fam => StreamEvent.moduleEv (stream_grouped_module cfg d fam)) ++
        stream_mid total) ++
      (stream_updates (stream_base_name d) desc_for total 0 order ++ stream_tail d) := by
    simp [List.append_assoc]
  rw [hassoc] at heq
  have hxB : StreamEvent.moduleUpdate name dsc ∉
      (stream_header total ++
        fams.map (fun fam => StreamEvent.moduleEv (stream_grouped_module cfg d fam)) ++
        stream_mid total) := by
    intro hmem
    simp [stream_header, stream_mid, List.mem_append] at hmem
  obtain ⟨hBpre, hxC⟩ := decomp_mem_parts _ _ pre suf _ hxB heq
  rcases List.mem_append.mp hxC with hU | hT
  · rcases stream_updates_shape (stream_base_name d) desc_for total order 0 _ hU with
      ⟨m1, t1, c1, habs⟩ | ⟨fam, hfmem, hupd⟩
    · exact absurd habs (by simp)
    · injection hupd with h1 h2
      refine ⟨stream_grouped_module cfg d fam, ?_, ?_⟩
      · apply hBpre
        have hmap : StreamEvent.moduleEv (stream_grouped_module cfg d fam) ∈
            fams.map (fun fam => StreamEvent.moduleEv (stream_grouped_module cfg d fam)) :=
          List.mem_map_of_mem _ (horder fam hfmem)
        exact List.mem_append_left _ (List.mem_append_right _ hmap)
      · rw [h1]
        rfl
  · exact absurd hT (by simp [stream_tail])

theorem stream_phase_complete_last (d : List (String × List String))
    (cfg : Option (List (String × String))) (desc_for : String → String)
    (fams order : List String) (total : Nat) :
    ∀ (pre suf : List StreamEvent) (msg : String) (tm : Nat),
      stream_header total ++
        fams.map (fun fam => StreamEvent.moduleEv (stream_grouped_module cfg d fam)) ++
        stream_mid total ++
        stream_updates (stream_base_name d) desc_for total 0 order ++
        stream_tail d = pre ++ StreamEvent.completeEv msg tm :: suf →
      suf = [] := by
  intro pre suf msg tm heq
  have hassoc :
      stream_header total ++
        fams.map (fun fam => StreamEvent.moduleEv (stream_grouped_module cfg d fam)) ++
        stream_mid total ++
        stream_updates (stream_base_name d) desc_for total 0 order ++
        stream_tail d =
      (stream_header total ++
        fams.map (fun fam => StreamEvent.moduleEv (stream_grouped_module cfg d fam)) ++
        stream_mid total ++
        stream_updates (stream_base_name d) desc_for total 0 order ++
        [StreamEvent.descriptionsComplete "All descriptions loaded"]) ++
      [StreamEvent.completeEv
        ("Retrieved " ++ toString ((d.map (fun p => p.2.length)).sum) ++
          " module versions across " ++ toString d.length ++ " modules")
        d.length] := by
    simp [stream_tail, List.append_assoc]
  rw [hassoc] at heq
  refine last_only_decomp (fun e => ∃ m2 t2, e = StreamEvent.completeEv m2 t2) _ _
    ?_ pre _ suf ⟨msg, tm, rfl⟩ heq
  intro e he hP
  obtain ⟨m2, t2, rfl⟩ := hP
  simp only [List.mem_append, List.mem_singleton] at he
  rcases he with ⟨⟨⟨hh | hm⟩ | hmid⟩ | hU⟩ | hdc
  · simp [stream_header] at hh
  · simp at hm
  · simp [stream_mid] at hmid
  · rcases stream_updates_shape (stream_base_name d) desc_for total order 0 _ hU with
      ⟨m1, t1, c1, habs⟩ | ⟨fam, _, habs⟩ <;> simp at habs
  · simp at hdc

/-- C7: in every streaming scan whose completion order draws from the
submitted families, each `module_update` event's key equals the name of
a `module` event emitted earlier in the same scan (it occurs in the
prefix before the update), and nothing — in particular no `module` event
— follows the `complete` event. -/
theorem modules_streaming_ordering (cmd : Except String String)
    (cfg : Option (List (String × String))) (dcache : List (String × String))
    (details : String → Option String) (completion_order : List String)
    (horder : ∀ fam ∈ completion_order, fam ∈ stream_families_of cmd) :
    (∀ (pre suf : List StreamEvent) (name dsc : String),
      get_all_modules_two_stage_streaming cmd cfg dcache details completion_order =
        pre ++ StreamEvent.moduleUpdate name dsc :: suf →
      ∃ m : GroupedModule, StreamEvent.moduleEv m ∈ pre ∧ m.name = name) ∧
    (∀ (pre suf : List StreamEvent) (msg : String) (tm : Nat),
      get_all_modules_two_stage_streaming cmd cfg dcache details completion_order =
        pre ++ StreamEvent.completeEv msg tm :: suf →
      suf = []) := by
  rcases cmd with e | output
  · constructor
    · intro pre suf name dsc heq
      have hx : StreamEvent.moduleUpdate name dsc ∈
          get_all_modules_two_stage_streaming (Except.error e) cfg dcache details
            completion_order := by
        rw [heq]
        exact List.mem_append_right _ (List.mem_cons_self _ _)
      simp [get_all_modules_two_stage_streaming] at hx
    · intro pre suf msg tm heq
      have hx : StreamEvent.completeEv msg tm ∈
          get_all_modules_two_stage_streaming (Except.error e) cfg dcache details
            completion_order := by
        rw [heq]
        exact List.mem_append_right _ (List.mem_cons_self _ _)
      simp [get_all_modules_two_stage_streaming] at hx
  · by_cases hout : pyStrip output = ""
    · constructor
      · intro pre suf name dsc heq
        have hx : StreamEvent.moduleUpdate name dsc ∈
            get_all_modules_two_stage_streaming (Except.ok output) cfg dcache details
              completion_order := by
          rw [heq]
          exact List.mem_append_right _ (List.mem_cons_self _ _)
        simp [get_all_modules_two_stage_streaming, hout] at hx
      · intro pre suf msg tm heq
        have hx : StreamEvent.completeEv msg tm ∈
            get_all_modules_two_stage_streaming (Except.ok output) cfg dcache details
              completion_order := by
          rw [heq]
          exact List.mem_append_right _ (List.mem_cons_self _ _)
        simp [get_all_modules_two_stage_streaming, hout] at hx
    · have horder2 : ∀ fam ∈ completion_order,
          fam ∈ py_sorted_strings ((parse_module_spider_output output).map Prod.fst) := by
        intro fam hf
        have hmem := horder fam hf
        simpa [stream_families_of, hout] using hmem
      constructor
      · intro pre suf name dsc heq
        simp only [get_all_modules_two_stage_streaming, if_neg hout] at heq
        exact stream_phase_update_earlier _ cfg _ _ completion_order _ horder2
          pre suf name dsc heq
      · intro pre suf msg tm heq
        simp only [get_all_modules_two_stage_streaming, if_neg hout] at heq
        exact stream_phase_complete_last _ cfg _ _ completion_order _ pre suf msg tm heq

/-- C7 witness: a concrete scan over two families with the futures
completing in listing order. -/
theorem modules_streaming_ordering_witness :
    (∀ fam ∈ (["Armadillo", "zlib"] : List String),
      fam ∈ stream_families_of (Except.ok "Armadillo/9.2\nArmadillo/11.4.3\nzlib/1.2")) ∧
    ((∀ (pre suf : List StreamEvent) (name dsc : String),
      get_all_modules_two_stage_streaming
          (Except.ok "Armadillo/9.2\nArmadillo/11.4.3\nzlib/1.2") none []
          (fun _ => none) ["Armadillo", "zlib"] =
        pre ++ StreamEvent.moduleUpdate name dsc :: suf →
      ∃ m : GroupedModule, StreamEvent.moduleEv m ∈ pre ∧ m.name = name) ∧
    (∀ (pre suf : List StreamEvent) (msg : String) (tm : Nat),
      get_all_modules_two_stage_streaming
          (Except.ok "Armadillo/9.2\nArmadillo/11.4.3\nzlib/1.2") none []
          (fun _ => none) ["Armadillo", "zlib"] =
        pre ++ StreamEvent.completeEv msg tm :: suf →
      suf = [])) :=
  ⟨by decide,
   modules_streaming_ordering (Except.ok "Armadillo/9.2\nArmadillo/11.4.3\nzlib/1.2")
     none [] (fun _ => none) ["Armadillo", "zlib"] (by decide)⟩
